import Mathlib

/-!
Shallow embedding of the DustSweeper `Sweeper` contract
(`src/contracts/Sweeper.sol`, Solidity 0.8.19) and verification of the
frozen claims about its `sweepAndSwap` batch operation.

Modelling conventions:
* There is a single initiator (`msg.sender`); balances are functions from
  token addresses (as `Nat`, with `0` the native-asset sentinel used for
  `targetToken`) to `Nat` amounts.
* Each external call whose outcome the contract cannot control (the Permit2
  relay, the per-asset Permit2 pull, the token approve call, the aggregator
  call, the initiator accepting native transfers) is an environment
  parameter.  Listed source tokens and the ERC20 target token follow
  standard ERC20 transfer semantics (success iff the balance suffices,
  returning a boolean word), which is what the repository's mocks implement.
* A revert of the whole invocation is `Except.error`; EVM rollback semantics
  mean an aborted invocation leaves the pre-call state (see `sweepTx`).
* Solidity 0.8 checked arithmetic: `10 ** e` and `price * 10 ** e` in the
  price normalization revert with an arithmetic panic when the result does
  not fit in `uint256`; this is modelled by `normalizePrice` returning
  `none`, which `sweepOne` turns into an unconditional abort.
-/

/-- Bound of `uint256` arithmetic; a checked operation whose mathematical
result is `≥ uintBound` reverts with an arithmetic panic. -/
def uintBound : Nat := 2 ^ 256

/-- Pointwise update of a balance table. -/
def upd (f : Nat → Nat) (k v : Nat) : Nat → Nat := fun x => if x = k then v else f x

/-- Observable chain state relevant to the engine: the reentrancy lock
word `_status` (1 = free, 2 = busy, from the `ReentrancyGuard` base
contract), ERC20 balances of the initiator and of the engine, and native
ETH balances of both. -/
structure Chain where
  status : Nat
  userBal : Nat → Nat
  engBal : Nat → Nat
  userEth : Nat
  engEth : Nat

/-- Return-data shapes of a low-level token call, as seen by the
`_safeTransfer` / `_safeApprove` wrappers: no return data, a word decoding
to a boolean, or data on which `abi.decode(data, (bool))` itself reverts. -/
inductive RetData
  | empty
  | boolVal (b : Bool)
  | malformed
deriving DecidableEq, Repr

/-- Judgement of the `_safeTransfer` / `_safeApprove` wrappers
(`Sweeper.sol` lines 237-246): the call is treated as successful iff the
low-level call succeeded and either returned no data or returned data
decoding to `true`.  Malformed return data makes `abi.decode` revert, which
aborts the invocation exactly as a failed `require` does, so it is judged
a failure here. -/
def callJudge (ok : Bool) (d : RetData) : Bool :=
  ok && (match d with
    | .empty => true
    | .boolVal b => b
    | .malformed => false)

/-- Behaviour of the conversion venue (aggregator) for one asset: either a
plain call with a fixed success flag, or the reentrant mock
(`MockAggregatorReentrant.sol`) that calls back into `sweepAndSwap` and
reverts its own frame when the nested call fails. -/
inductive Venue
  | plain (ok : Bool)
  | reentrant
deriving DecidableEq, Repr

/-- Success flag of the aggregator call.  The reentrant venue succeeds iff
its nested `sweepAndSwap` call succeeds, and that nested call is decided at
the reentrancy guard alone: it runs with empty arrays, so it succeeds
exactly when the lock is free (`_status == 1`). -/
def aggSuccess (v : Venue) (st : Chain) : Bool :=
  match v with
  | .plain b => b
  | .reentrant => decide (st.status = 1)

/-- Per-asset environment: outcomes of the external calls made while
processing one asset, plus the effect of a successful venue call (whether
it pulls the full approved amount of the source token, and how much of the
target token / native ETH it sends to the engine). -/
structure AssetEnv where
  pullOk : Bool
  approveCallOk : Bool
  approveRet : RetData
  venue : Venue
  takesAll : Bool
  giveTarget : Nat
  giveEth : Nat

/-- One asset of the batch after zipping the parallel request arrays with
the per-index environment. -/
structure AssetReq where
  token : Nat
  minPrice : Nat
  maxPrice : Nat
  hasCalldata : Bool
  pullOk : Bool
  approveCallOk : Bool
  approveRet : RetData
  venue : Venue
  takesAll : Bool
  giveTarget : Nat
  giveEth : Nat

/-- Engine configuration and batch-wide environment: whether a price oracle
is configured and its per-token answer, the requested price decimals, the
target token (0 is the native sentinel), whether the initiator accepts
native transfers, and the outcome of the Permit2 relay call. -/
structure Cfg where
  oracleSet : Bool
  priceOf : Nat → Nat × Nat
  priceDecimals : Nat
  targetToken : Nat
  ethSendOk : Bool
  permitOk : Bool

/-- Events emitted by the contract (`Swept` / `SweepFailed`,
`Sweeper.sol` lines 40-41); the initiator is fixed so the `user` field is
dropped. -/
inductive Event
  | swept (token amountIn target amountOut : Nat)
  | sweepFailed (token : Nat) (reason : String)
deriving DecidableEq, Repr

/-- Per-asset outcome recorded by the embedding, one per loop iteration of
a non-aborted invocation: success (`Swept` emitted), refunded after the
pull, untouched before the pull, or the native-path branch where the ETH
send to the initiator failed and processing continued without a refund
(`Sweeper.sol` lines 196-199). -/
inductive Outcome
  | swept (token amountIn amountOut : Nat)
  | refunded (token amountIn : Nat) (reason : String)
  | untouched (token : Nat) (reason : String)
  | nativeStranded (token amountIn : Nat)
deriving DecidableEq, Repr

/-- External calls performed by the engine, in program order.  Aborted
invocations report the calls made before the abort. -/
inductive ExtCall
  | permitRelay (payload : List Nat)
  | oracleQuery (token : Nat)
  | balanceQuery (token : Nat)
  | pullCall (token amount : Nat)
  | approveCall (token amount : Nat)
  | aggCall (token : Nat)
  | tokenXfer (token amount : Nat)
  | nativeSend (amount : Nat)
deriving DecidableEq, Repr

/-- Price normalization (`Sweeper.sol` lines 129-134) under Solidity 0.8
checked arithmetic: `none` is an arithmetic-panic revert of `10 ** d` or of
the product. -/
def normalizePrice (price decs pd : Nat) : Option Nat :=
  if decs > pd then
    if 10 ^ (decs - pd) < uintBound then some (price / 10 ^ (decs - pd)) else none
  else if decs < pd then
    if 10 ^ (pd - decs) < uintBound then
      if price * 10 ^ (pd - decs) < uintBound then some (price * 10 ^ (pd - decs))
      else none
    else none
  else some price

/-- Price gate for one asset (`Sweeper.sol` lines 124-141): passes when no
oracle is configured; with an oracle, a zero price fails, and otherwise the
normalized price must lie within the inclusive caller bounds.
`Except.error` is the arithmetic-panic abort. -/
def priceGateEval (cfg : Cfg) (token minP maxP : Nat) : Except String Bool :=
  if cfg.oracleSet then
    let pr := cfg.priceOf token
    if pr.1 = 0 then .ok false
    else
      match normalizePrice pr.1 pr.2 cfg.priceDecimals with
      | none => .error "PANIC_ARITHMETIC_OVERFLOW"
      | some np => if np < minP ∨ np > maxP then .ok false else .ok true
  else .ok true

/-- Result of the low-level `token.transfer(to, value)` call issued by
`_safeTransfer` for a standard ERC20: succeeds returning `true` iff the
engine balance suffices, else reverts (no return data). -/
def tokenTransferCall (st : Chain) (token amount : Nat) : Bool × RetData :=
  if amount ≤ st.engBal token then (true, .boolVal true) else (false, .empty)

/-- The `_safeTransfer` wrapper (`Sweeper.sol` lines 237-240) moving
`amount` of `token` from the engine to the initiator; `none` is the
`TRANSFER_FAILED` revert. -/
def xfer (st : Chain) (token amount : Nat) : Option Chain :=
  let r := tokenTransferCall st token amount
  if callJudge r.1 r.2 then
    some { st with
      engBal := upd st.engBal token (st.engBal token - amount),
      userBal := upd st.userBal token (st.userBal token + amount) }
  else none

/-- Effect of the per-asset Permit2 pull (`_permit2Transfer`): moves
`amount` of `token` from the initiator to the engine. -/
def pullApply (st : Chain) (token amount : Nat) : Chain :=
  { st with
    userBal := upd st.userBal token (st.userBal token - amount),
    engBal := upd st.engBal token (st.engBal token + amount) }

/-- Effect of a successful venue call for one asset: takes the full
approved amount of the source token (or nothing), credits the engine with
the produced target-token amount (when the target is an ERC20) and with the
produced native amount. -/
def venueApply (cfg : Cfg) (req : AssetReq) (amountIn : Nat) (st : Chain) : Chain :=
  let consumed := if req.takesAll then amountIn else 0
  let st1 := { st with engBal := upd st.engBal req.token (st.engBal req.token - consumed) }
  let st2 :=
    if cfg.targetToken ≠ 0 then
      { st1 with engBal := upd st1.engBal cfg.targetToken (st1.engBal cfg.targetToken + req.giveTarget) }
    else st1
  { st2 with engEth := st2.engEth + req.giveEth }

/-- Result of one loop iteration: an abort (reason and calls made so far in
the iteration) or the new state, emitted events, the asset outcome and the
calls made. -/
abbrev StepRes := Except (String × List ExtCall) (Chain × List Event × Outcome × List ExtCall)

/-- Per-asset failure handling shared by every recoverable branch
(`emit SweepFailed; if (!partialSuccess) revert(...) else continue`): in
best-effort mode the iteration completes with the event and outcome, in
atomic mode the invocation aborts with the branch's revert reason. -/
def failStep (be : Bool) (abortReason : String) (st : Chain) (evs : List Event)
    (o : Outcome) (cs : List ExtCall) : StepRes :=
  if be then .ok (st, evs, o, cs) else .error (abortReason, cs)

/-- Refund of the pulled amount followed by the branch's `SweepFailed`
report and mode handling, shared by the no-calldata, aggregator-failure
and no-target-received branches (`Sweeper.sol` lines 165-169, 182-188,
208-213); a failed refund transfer is the fatal `TRANSFER_FAILED`
revert. -/
def refundThen (be : Bool) (reason : String) (token amt : Nat) (st : Chain)
    (cs : List ExtCall) : StepRes :=
  match xfer st token amt with
  | none => .error ("TRANSFER_FAILED", cs ++ [.tokenXfer token amt])
  | some st2 =>
      failStep be reason st2 [.sweepFailed token reason]
        (.refunded token amt reason) (cs ++ [.tokenXfer token amt])

/-- Settlement of one asset after a successful venue call
(`Sweeper.sol` lines 190-217): native-sentinel path sweeps the engine's
whole ETH balance, ERC20 path settles the balance delta or refunds on zero
output; ends with the `Swept` emission. -/
def settleStage (cfg : Cfg) (be : Bool) (req : AssetReq) (amountIn balBefore : Nat)
    (st2 : Chain) (c4 : List ExtCall) : StepRes :=
  if cfg.targetToken = 0 then
    let balanceEth := st2.engEth
    if balanceEth > 0 then
      if cfg.ethSendOk then
        let st3 := { st2 with engEth := 0, userEth := st2.userEth + balanceEth }
        .ok (st3, [.swept req.token amountIn 0 balanceEth],
          .swept req.token amountIn balanceEth, c4 ++ [.nativeSend balanceEth])
      else
        failStep be "ETH_TRANSFER_FAILED" st2
          [.sweepFailed req.token "ETH_TRANSFER_FAILED"]
          (.nativeStranded req.token amountIn) (c4 ++ [.nativeSend balanceEth])
    else
      .ok (st2, [.swept req.token amountIn 0 0], .swept req.token amountIn 0, c4)
  else
    let balAfter := st2.engBal cfg.targetToken
    if balAfter > balBefore then
      let amountOut := balAfter - balBefore
      match xfer st2 cfg.targetToken amountOut with
      | none => .error ("TRANSFER_FAILED", c4 ++ [.tokenXfer cfg.targetToken amountOut])
      | some st3 =>
          .ok (st3, [.swept req.token amountIn cfg.targetToken amountOut],
            .swept req.token amountIn amountOut, c4 ++ [.tokenXfer cfg.targetToken amountOut])
    else
      refundThen be "NO_TARGET_RECEIVED" req.token amountIn st2 c4

/-- Balance snapshot, aggregator call and settlement or refund for one
asset (`Sweeper.sol` lines 176-217). -/
def convertStage (cfg : Cfg) (be : Bool) (req : AssetReq) (amountIn : Nat)
    (st1 : Chain) (c3 : List ExtCall) : StepRes :=
  let balBefore := if cfg.targetToken ≠ 0 then st1.engBal cfg.targetToken else 0
  let c4 := c3 ++ [.aggCall req.token]
  if aggSuccess req.venue st1 then
    settleStage cfg be req amountIn balBefore (venueApply cfg req amountIn st1) c4
  else
    refundThen be "AGGREGATOR_CALL_FAILED" req.token amountIn st1 c4

/-- Calldata check and approve step for an asset already pulled into the
engine (`Sweeper.sol` lines 164-173); a judged-failed approve is the fatal
`APPROVE_FAILED` revert. -/
def pulledStage (cfg : Cfg) (be : Bool) (req : AssetReq) (amountIn : Nat)
    (st1 : Chain) (c2 : List ExtCall) : StepRes :=
  if req.hasCalldata then
    let c3 := c2 ++ [.approveCall req.token amountIn]
    if callJudge req.approveCallOk req.approveRet then
      convertStage cfg be req amountIn st1 c3
    else .error ("APPROVE_FAILED", c3)
  else
    refundThen be "NO_SWAP_CALLDATA" req.token amountIn st1 c2

/-- One iteration of the `sweepAndSwap` loop (`Sweeper.sol` lines 116-218)
for one asset: price gate, balance check, Permit2 pull, then the pulled
pipeline. -/
def sweepOne (cfg : Cfg) (be : Bool) (req : AssetReq) (st : Chain) : StepRes :=
  let c0 : List ExtCall := if cfg.oracleSet then [.oracleQuery req.token] else []
  match priceGateEval cfg req.token req.minPrice req.maxPrice with
  | .error m => .error (m, c0)
  | .ok false =>
      failStep be "PRICE_CHECK_FAILED" st
        [.sweepFailed req.token "PRICE_OUT_OF_RANGE_OR_UNKNOWN"]
        (.untouched req.token "PRICE_OUT_OF_RANGE_OR_UNKNOWN") c0
  | .ok true =>
      let amountIn := st.userBal req.token
      let c1 := c0 ++ [.balanceQuery req.token]
      if amountIn = 0 then
        failStep be "ZERO_BALANCE" st
          [.sweepFailed req.token "ZERO_BALANCE"]
          (.untouched req.token "ZERO_BALANCE") c1
      else
        let c2 := c1 ++ [.pullCall req.token amountIn]
        if req.pullOk then
          pulledStage cfg be req amountIn (pullApply st req.token amountIn) c2
        else
          failStep be "PERMIT2_TRANSFER_FAILED" st
            [.sweepFailed req.token "PERMIT2_TRANSFER_FAILED"]
            (.untouched req.token "PERMIT2_TRANSFER_FAILED") c2

/-- The batch loop: assets are processed strictly in order; an abort of one
iteration aborts the whole run. -/
def sweepAssets (cfg : Cfg) (be : Bool) :
    List AssetReq → Chain → Except (String × List ExtCall) (Chain × List Event × List Outcome × List ExtCall)
  | [], st => .ok (st, [], [], [])
  | r :: rs, st =>
      match sweepOne cfg be r st with
      | .error e => .error e
      | .ok (st1, evs, o, cs) =>
          match sweepAssets cfg be rs st1 with
          | .error (m, cs2) => .error (m, cs ++ cs2)
          | .ok (st2, evs2, os, cs2) => .ok (st2, evs ++ evs2, o :: os, cs ++ cs2)

/-- Result of a non-aborted invocation. -/
structure RunResult where
  state : Chain
  events : List Event
  outcomes : List Outcome
  calls : List ExtCall

/-- Revert of the whole invocation: the reason and the external calls made
before the abort. -/
structure AbortInfo where
  reason : String
  calls : List ExtCall

/-- Zip of the parallel request arrays with the per-index environment.
The `getD` defaults are never consulted because the lengths are checked
before this is evaluated. -/
def mkReqs (tokens minPs maxPs dataLens : List Nat) (env : Nat → AssetEnv) : List AssetReq :=
  (List.range tokens.length).map (fun i =>
    { token := tokens.getD i 0
      minPrice := minPs.getD i 0
      maxPrice := maxPs.getD i 0
      hasCalldata := dataLens.getD i 0 != 0
      pullOk := (env i).pullOk
      approveCallOk := (env i).approveCallOk
      approveRet := (env i).approveRet
      venue := (env i).venue
      takesAll := (env i).takesAll
      giveTarget := (env i).giveTarget
      giveEth := (env i).giveEth })

/-- The `sweepAndSwap` entry point (`Sweeper.sol` lines 97-219): reentrancy
guard, array-length checks, optional Permit2 relay, then the per-asset
loop; on normal return the lock is restored to free. -/
def sweepAndSwap (cfg : Cfg) (permitCalldata : List Nat)
    (tokens minPs maxPs dataLens : List Nat) (be : Bool)
    (env : Nat → AssetEnv) (st : Chain) : Except AbortInfo RunResult :=
  if st.status ≠ 1 then .error ⟨"REENTRANCY", []⟩
  else
    let stL := { st with status := 2 }
    if tokens.length ≠ dataLens.length then .error ⟨"ARRAY_LENGTH_MISMATCH", []⟩
    else if ¬ (tokens.length = minPs.length ∧ tokens.length = maxPs.length) then
      .error ⟨"PRICE_ARRAY_MISMATCH", []⟩
    else
      let pcs : List ExtCall := if permitCalldata = [] then [] else [.permitRelay permitCalldata]
      if permitCalldata ≠ [] ∧ ¬ cfg.permitOk then .error ⟨"PERMIT_CALL_FAILED", pcs⟩
      else
        match sweepAssets cfg be (mkReqs tokens minPs maxPs dataLens env) stL with
        | .error (m, cs) => .error ⟨m, pcs ++ cs⟩
        | .ok (st2, evs, os, cs) => .ok ⟨{ st2 with status := 1 }, evs, os, pcs ++ cs⟩

/-- Caller-observed post-transaction state: EVM rollback leaves the
pre-call state when the invocation aborts. -/
def sweepTx (cfg : Cfg) (permitCalldata : List Nat)
    (tokens minPs maxPs dataLens : List Nat) (be : Bool)
    (env : Nat → AssetEnv) (st : Chain) : Chain :=
  match sweepAndSwap cfg permitCalldata tokens minPs maxPs dataLens be env st with
  | .error _ => st
  | .ok r => r.state

/-- Whether the invocation completed without aborting. -/
def runOk (r : Except AbortInfo RunResult) : Bool :=
  match r with
  | .error _ => false
  | .ok _ => true

/-- Events of a completed invocation (an aborted one discards them). -/
def runEvents (r : Except AbortInfo RunResult) : List Event :=
  match r with
  | .error _ => []
  | .ok x => x.events

/-- Per-asset outcomes of a completed invocation. -/
def runOutcomes (r : Except AbortInfo RunResult) : List Outcome :=
  match r with
  | .error _ => []
  | .ok x => x.outcomes

/-- External calls performed during the invocation, aborted or not. -/
def callsOf (r : Except AbortInfo RunResult) : List ExtCall :=
  match r with
  | .error e => e.calls
  | .ok x => x.calls

/-- Caller-observed state after the invocation, given the pre-call state
(rollback on abort). -/
def stateOf (r : Except AbortInfo RunResult) (st : Chain) : Chain :=
  match r with
  | .error _ => st
  | .ok x => x.state

/-- Revert reason of an aborted invocation. -/
def reasonOf (r : Except AbortInfo RunResult) : Option String :=
  match r with
  | .error e => some e.reason
  | .ok _ => none

/-- Whether an event list contains a `SweepFailed` emission. -/
def hasFail (evs : List Event) : Bool :=
  evs.any (fun e =>
    match e with
    | .sweepFailed _ _ => true
    | _ => false)

/-- Whether an outcome is the native-path branch that leaves value inside
the engine (ETH send to the initiator failed, no refund). -/
def isStranded : Outcome → Bool
  | .nativeStranded _ _ => true
  | _ => false

/-- Calls recorded by one loop iteration, aborted or not. -/
def stepCalls (r : StepRes) : List ExtCall :=
  match r with
  | .error (_, cs) => cs
  | .ok (_, _, _, cs) => cs

/-- Whether an external call is a relay of the authorization payload. -/
def isRelay : ExtCall → Bool
  | .permitRelay _ => true
  | _ => false

/-- Calls recorded by the batch loop, aborted or not. -/
def batchCalls (r : Except (String × List ExtCall) (Chain × List Event × List Outcome × List ExtCall)) : List ExtCall :=
  match r with
  | .error (_, cs) => cs
  | .ok (_, _, _, cs) => cs

/-- Happy-path fixture configuration: no oracle, ERC20 target token 2,
initiator accepts ETH, Permit2 relay succeeds. -/
def cfgT : Cfg :=
  { oracleSet := false, priceOf := fun _ => (0, 0), priceDecimals := 8,
    targetToken := 2, ethSendOk := true, permitOk := true }

/-- Fixture environment: every external call succeeds, the venue takes the
full pulled amount and returns 7 units of the target token. -/
def envT : Nat → AssetEnv := fun _ =>
  { pullOk := true, approveCallOk := true, approveRet := .boolVal true,
    venue := .plain true, takesAll := true, giveTarget := 7, giveEth := 0 }

/-- Fixture pre-call state: lock free, the initiator holds 5 units of
token 1 and nothing else; the engine is empty. -/
def stT : Chain :=
  { status := 1, userBal := fun t => if t = 1 then 5 else 0,
    engBal := fun _ => 0, userEth := 0, engEth := 0 }

/-- Fixture state with the reentrancy lock already held. -/
def stBusy : Chain := { stT with status := 2 }

/-- Native-target fixture configuration with an initiator that rejects
ETH transfers. -/
def cfgN : Cfg := { cfgT with targetToken := 0, ethSendOk := false }

/-- Fixture environment whose venue takes the full pulled amount and sends
3 wei of ETH to the engine. -/
def envN : Nat → AssetEnv := fun _ =>
  { pullOk := true, approveCallOk := true, approveRet := .boolVal true,
    venue := .plain true, takesAll := true, giveTarget := 0, giveEth := 3 }

/-- Fixture pre-call state where the initiator holds 5 units of token 7. -/
def stN : Chain :=
  { status := 1, userBal := fun t => if t = 7 then 5 else 0,
    engBal := fun _ => 0, userEth := 0, engEth := 0 }

/-- Native-target fixture configuration with a cooperating initiator. -/
def cfgZ : Cfg := { cfgT with targetToken := 0 }

/-- Fixture environment whose venue succeeds but produces nothing. -/
def envZ : Nat → AssetEnv := fun _ =>
  { pullOk := true, approveCallOk := true, approveRet := .boolVal true,
    venue := .plain true, takesAll := true, giveTarget := 0, giveEth := 0 }

/-- Fixture environment whose venue succeeds, consumes nothing and
produces nothing (a no-op venue). -/
def envB : Nat → AssetEnv := fun _ =>
  { pullOk := true, approveCallOk := true, approveRet := .boolVal true,
    venue := .plain true, takesAll := false, giveTarget := 0, giveEth := 0 }

/-- Fixture environment whose venue attempts to reenter `sweepAndSwap`. -/
def envR : Nat → AssetEnv := fun _ =>
  { pullOk := true, approveCallOk := true, approveRet := .boolVal true,
    venue := .reentrant, takesAll := true, giveTarget := 7, giveEth := 0 }

/-- Fixture oracle configuration whose decimal gap (requested 100, oracle
0) overflows the checked exponentiation of the normalizer. -/
def cfgO : Cfg :=
  { oracleSet := true, priceOf := fun _ => (1, 0), priceDecimals := 100,
    targetToken := 2, ethSendOk := true, permitOk := true }

/-- Fixture configuration whose Permit2 relay call fails. -/
def cfgP : Cfg := { cfgT with permitOk := false }

/-- Fixture per-asset request with a reentrant venue. -/
def reqR : AssetReq :=
  { token := 1, minPrice := 0, maxPrice := 0, hasCalldata := true,
    pullOk := true, approveCallOk := true, approveRet := .boolVal true,
    venue := .reentrant, takesAll := true, giveTarget := 7, giveEth := 0 }

/-- Fixture per-asset request whose approve call returns false. -/
def reqA : AssetReq :=
  { token := 1, minPrice := 0, maxPrice := 0, hasCalldata := true,
    pullOk := true, approveCallOk := true, approveRet := .boolVal false,
    venue := .plain true, takesAll := true, giveTarget := 7, giveEth := 0 }

/-- Fixture per-asset request whose venue consumes the pulled amount and
produces nothing (zero output with nothing left to refund). -/
def reqC : AssetReq :=
  { token := 1, minPrice := 0, maxPrice := 0, hasCalldata := true,
    pullOk := true, approveCallOk := true, approveRet := .boolVal true,
    venue := .plain true, takesAll := true, giveTarget := 0, giveEth := 0 }

/-- Fixture per-asset request whose venue is a no-op (consumes nothing,
produces nothing). -/
def reqB : AssetReq :=
  { token := 1, minPrice := 0, maxPrice := 0, hasCalldata := true,
    pullOk := true, approveCallOk := true, approveRet := .boolVal true,
    venue := .plain true, takesAll := false, giveTarget := 0, giveEth := 0 }

lemma upd_self (f : Nat → Nat) (k v : Nat) : upd f k v k = v := by
  simp [upd]

lemma upd_ne (f : Nat → Nat) (k v x : Nat) (h : x ≠ k) : upd f k v x = f x := by
  simp [upd, h]

lemma xfer_of_le (st : Chain) (token amount : Nat) (h : amount ≤ st.engBal token) :
    xfer st token amount = some { st with
      engBal := upd st.engBal token (st.engBal token - amount),
      userBal := upd st.userBal token (st.userBal token + amount) } := by
  simp [xfer, tokenTransferCall, callJudge, h]

lemma xfer_of_gt (st : Chain) (token amount : Nat) (h : st.engBal token < amount) :
    xfer st token amount = none := by
  simp [xfer, tokenTransferCall, callJudge, Nat.not_le.mpr h]

/-- C6: if the asset list, min-price list, max-price list, and
conversion-payload list do not all have equal length, the invocation of
sweepAndSwap aborts unconditionally before any permit forwarding or
per-asset work, in both atomic and best-effort modes, with no state
change. -/
theorem C6_array_length_mismatch_aborts
    (cfg : Cfg) (pc tokens minPs maxPs dataLens : List Nat) (be : Bool)
    (env : Nat → AssetEnv) (st : Chain)
    (h : ¬ (tokens.length = dataLens.length ∧ tokens.length = minPs.length ∧
            tokens.length = maxPs.length)) :
    (∃ m, sweepAndSwap cfg pc tokens minPs maxPs dataLens be env st = .error ⟨m, []⟩) ∧
    sweepTx cfg pc tokens minPs maxPs dataLens be env st = st := by
  have key : ∃ m, sweepAndSwap cfg pc tokens minPs maxPs dataLens be env st = .error ⟨m, []⟩ := by
    by_cases hs : st.status = 1
    · by_cases h1 : tokens.length = dataLens.length
      · have h2 : ¬ (tokens.length = minPs.length ∧ tokens.length = maxPs.length) := by
          tauto
        rw [h1] at h2
        exact ⟨"PRICE_ARRAY_MISMATCH", by simp [sweepAndSwap, hs, h1, h2]⟩
      · exact ⟨"ARRAY_LENGTH_MISMATCH", by simp [sweepAndSwap, hs, h1]⟩
    · exact ⟨"REENTRANCY", by simp [sweepAndSwap, hs]⟩
  refine ⟨key, ?_⟩
  obtain ⟨m, hm⟩ := key
  simp [sweepTx, hm]

/-- Witness for C6 at a concrete mismatched input. -/
theorem C6_witness :
    (¬ (([1] : List Nat).length = ([] : List Nat).length ∧
        ([1] : List Nat).length = ([0] : List Nat).length ∧
        ([1] : List Nat).length = ([0] : List Nat).length)) ∧
    ((∃ m, sweepAndSwap cfgT [] [1] [0] [0] [] true envT stT = .error ⟨m, []⟩) ∧
      sweepTx cfgT [] [1] [0] [0] [] true envT stT = stT) :=
  ⟨by decide, C6_array_length_mismatch_aborts cfgT [] [1] [0] [0] [] true envT stT (by decide)⟩

lemma refundThen_no_relay (be : Bool) (reason : String) (token amt : Nat) (st : Chain)
    (cs : List ExtCall) (h : ∀ c ∈ cs, isRelay c = false) :
    ∀ c ∈ stepCalls (refundThen be reason token amt st cs), isRelay c = false := by
  intro c hc
  simp only [refundThen, failStep] at hc
  repeat' split at hc
  all_goals
    simp only [stepCalls, List.mem_append, List.mem_singleton] at hc
  all_goals rcases hc with hc | rfl
  all_goals first | exact h c hc | rfl

lemma settleStage_no_relay (cfg : Cfg) (be : Bool) (req : AssetReq)
    (amountIn balBefore : Nat) (st2 : Chain) (c4 : List ExtCall)
    (h : ∀ c ∈ c4, isRelay c = false) :
    ∀ c ∈ stepCalls (settleStage cfg be req amountIn balBefore st2 c4), isRelay c = false := by
  intro c hc
  simp only [settleStage, failStep] at hc
  repeat' split at hc
  all_goals
    first
    | exact refundThen_no_relay be "NO_TARGET_RECEIVED" req.token amountIn st2 c4 h c hc
    | (simp only [stepCalls, List.mem_append, List.mem_singleton] at hc
       rcases hc with hc | rfl
       · exact h c hc
       · rfl)
    | (simp only [stepCalls] at hc; exact h c hc)

lemma convertStage_no_relay (cfg : Cfg) (be : Bool) (req : AssetReq)
    (amountIn : Nat) (st1 : Chain) (c3 : List ExtCall)
    (h : ∀ c ∈ c3, isRelay c = false) :
    ∀ c ∈ stepCalls (convertStage cfg be req amountIn st1 c3), isRelay c = false := by
  have h4 : ∀ c ∈ c3 ++ [ExtCall.aggCall req.token], isRelay c = false := by
    intro c hc
    rcases List.mem_append.1 hc with hc | hc
    · exact h c hc
    · simp only [List.mem_singleton] at hc
      subst hc; rfl
  intro c hc
  simp only [convertStage] at hc
  split at hc
  · exact settleStage_no_relay cfg be req amountIn _ _ _ h4 c hc
  · exact refundThen_no_relay be "AGGREGATOR_CALL_FAILED" req.token amountIn st1 _ h4 c hc

lemma pulledStage_no_relay (cfg : Cfg) (be : Bool) (req : AssetReq)
    (amountIn : Nat) (st1 : Chain) (c2 : List ExtCall)
    (h : ∀ c ∈ c2, isRelay c = false) :
    ∀ c ∈ stepCalls (pulledStage cfg be req amountIn st1 c2), isRelay c = false := by
  have h3 : ∀ c ∈ c2 ++ [ExtCall.approveCall req.token amountIn], isRelay c = false := by
    intro c hc
    rcases List.mem_append.1 hc with hc | hc
    · exact h c hc
    · simp only [List.mem_singleton] at hc
      subst hc; rfl
  intro c hc
  simp only [pulledStage] at hc
  repeat' split at hc
  · exact convertStage_no_relay cfg be req amountIn st1 _ h3 c hc
  · simp only [stepCalls] at hc
    exact h3 c hc
  · exact refundThen_no_relay be "NO_SWAP_CALLDATA" req.token amountIn st1 c2 h c hc

lemma sweepOne_no_relay (cfg : Cfg) (be : Bool) (req : AssetReq) (st : Chain) :
    ∀ c ∈ stepCalls (sweepOne cfg be req st), isRelay c = false := by
  intro c hc
  by_cases ho : cfg.oracleSet
  · simp only [sweepOne, failStep, ho, if_true] at hc
    have h0 : ∀ x ∈ [ExtCall.oracleQuery req.token], isRelay x = false := by
      intro x hx
      simp only [List.mem_singleton] at hx
      subst hx; rfl
    have h1 : ∀ x ∈ [ExtCall.oracleQuery req.token] ++ [ExtCall.balanceQuery req.token],
        isRelay x = false := by
      intro x hx
      simp only [List.mem_append, List.mem_singleton] at hx
      rcases hx with rfl | rfl <;> rfl
    have h2 : ∀ x ∈ [ExtCall.oracleQuery req.token] ++ [ExtCall.balanceQuery req.token] ++
        [ExtCall.pullCall req.token (st.userBal req.token)], isRelay x = false := by
      intro x hx
      simp only [List.mem_append, List.mem_singleton] at hx
      rcases hx with (rfl | rfl) | rfl <;> rfl
    repeat' split at hc
    all_goals
      first
      | exact pulledStage_no_relay cfg be req _ _ _ h2 c hc
      | exact h0 c (by simpa only [stepCalls] using hc)
      | exact h1 c (by simpa only [stepCalls] using hc)
      | exact h2 c (by simpa only [stepCalls] using hc)
  · simp only [sweepOne, failStep, ho, if_false] at hc
    have h0 : ∀ x ∈ ([] : List ExtCall), isRelay x = false := by
      intro x hx
      cases hx
    have h1 : ∀ x ∈ ([] : List ExtCall) ++ [ExtCall.balanceQuery req.token],
        isRelay x = false := by
      intro x hx
      simp only [List.mem_append, List.mem_singleton, List.not_mem_nil, false_or] at hx
      subst hx; rfl
    have h2 : ∀ x ∈ ([] : List ExtCall) ++ [ExtCall.balanceQuery req.token] ++
        [ExtCall.pullCall req.token (st.userBal req.token)], isRelay x = false := by
      intro x hx
      simp only [List.mem_append, List.mem_singleton, List.not_mem_nil, false_or] at hx
      rcases hx with rfl | rfl <;> rfl
    repeat' split at hc
    all_goals
      first
      | exact pulledStage_no_relay cfg be req _ _ _ h2 c hc
      | exact h0 c (by simpa only [stepCalls] using hc)
      | exact h1 c (by simpa only [stepCalls] using hc)
      | exact h2 c (by simpa only [stepCalls] using hc)
      | simp_all [isRelay]

lemma sweepAssets_no_relay (cfg : Cfg) (be : Bool) :
    ∀ (reqs : List AssetReq) (st : Chain),
      ∀ c ∈ batchCalls (sweepAssets cfg be reqs st), isRelay c = false := by
  intro reqs
  induction reqs with
  | nil => intro st c hc; simp [sweepAssets, batchCalls] at hc
  | cons r rs ih =>
      intro st c hc
      rcases h1 : sweepOne cfg be r st with e | ⟨st1, evs, o, cs⟩
      · obtain ⟨m, cs0⟩ := e
        simp only [sweepAssets, h1, batchCalls] at hc
        have hs := sweepOne_no_relay cfg be r st
        rw [h1] at hs
        exact hs c hc
      · rcases h2 : sweepAssets cfg be rs st1 with e2 | ⟨st2, evs2, os, cs2⟩
        · obtain ⟨m2, csr⟩ := e2
          simp only [sweepAssets, h1, h2, batchCalls] at hc
          rcases List.mem_append.1 hc with hc | hc
          · have hs := sweepOne_no_relay cfg be r st
            rw [h1] at hs
            exact hs c hc
          · have hr := ih st1
            rw [h2] at hr
            exact hr c hc
        · simp only [sweepAssets, h1, h2, batchCalls] at hc
          rcases List.mem_append.1 hc with hc | hc
          · have hs := sweepOne_no_relay cfg be r st
            rw [h1] at hs
            exact hs c hc
          · have hr := ih st1
            rw [h2] at hr
            exact hr c hc

/-- C7: a non-empty authorization payload is relayed verbatim to the
authorization registry exactly once, before any per-asset work; a failed
relay aborts the whole batch immediately in either mode with no per-asset
call made; an empty payload skips the relay entirely. -/
theorem C7_forward_once_authorization
    (cfg : Cfg) (pc tokens minPs maxPs dataLens : List Nat) (be : Bool)
    (env : Nat → AssetEnv) (st : Chain)
    (hs : st.status = 1)
    (hl1 : tokens.length = dataLens.length)
    (hl2 : tokens.length = minPs.length)
    (hl3 : tokens.length = maxPs.length) :
    (pc ≠ [] → cfg.permitOk = true →
      ∃ rest, callsOf (sweepAndSwap cfg pc tokens minPs maxPs dataLens be env st) =
          ExtCall.permitRelay pc :: rest ∧ ∀ c ∈ rest, isRelay c = false) ∧
    (pc ≠ [] → cfg.permitOk = false →
      sweepAndSwap cfg pc tokens minPs maxPs dataLens be env st =
        .error ⟨"PERMIT_CALL_FAILED", [.permitRelay pc]⟩) ∧
    (pc = [] → ∀ c ∈ callsOf (sweepAndSwap cfg pc tokens minPs maxPs dataLens be env st),
      isRelay c = false) := by
  have e1 : (tokens.length ≠ dataLens.length) = False := by simp [hl1]
  have e2 : (¬ (tokens.length = minPs.length ∧ tokens.length = maxPs.length)) = False := by
    simp [← hl2, ← hl3]
  have hnr := sweepAssets_no_relay cfg be (mkReqs tokens minPs maxPs dataLens env)
    { st with status := 2 }
  refine ⟨?_, ?_, ?_⟩
  · intro hpc hok
    rcases hres : sweepAssets cfg be (mkReqs tokens minPs maxPs dataLens env)
        { st with status := 2 } with ⟨m, cs⟩ | ⟨st2, evs, os, cs⟩
    · refine ⟨cs, ?_, ?_⟩
      · simp [sweepAndSwap, hs, e1, e2, hpc, hok, hres, callsOf]
      · intro c hcc
        rw [hres] at hnr
        exact hnr c hcc
    · refine ⟨cs, ?_, ?_⟩
      · simp [sweepAndSwap, hs, e1, e2, hpc, hok, hres, callsOf]
      · intro c hcc
        rw [hres] at hnr
        exact hnr c hcc
  · intro hpc hok
    simp [sweepAndSwap, hs, e1, e2, hpc, hok]
  · intro hpc
    subst hpc
    intro c hcc
    rcases hres : sweepAssets cfg be (mkReqs tokens minPs maxPs dataLens env)
        { st with status := 2 } with ⟨m, cs⟩ | ⟨st2, evs, os, cs⟩ <;>
      rw [hres] at hnr <;>
      simp [sweepAndSwap, hs, e1, e2, hres, callsOf] at hcc <;>
      exact hnr c hcc

/-- Witness for C7 with a non-empty payload on the happy-path fixture. -/
theorem C7_witness :
    ((9 :: [] : List Nat) ≠ [] → cfgT.permitOk = true →
      ∃ rest, callsOf (sweepAndSwap cfgT [9] [1] [0] [0] [1] true envT stT) =
          ExtCall.permitRelay [9] :: rest ∧ ∀ c ∈ rest, isRelay c = false) ∧
    ((9 :: [] : List Nat) ≠ [] → cfgT.permitOk = false →
      sweepAndSwap cfgT [9] [1] [0] [0] [1] true envT stT =
        .error ⟨"PERMIT_CALL_FAILED", [.permitRelay [9]]⟩) ∧
    (([9] : List Nat) = [] → ∀ c ∈ callsOf (sweepAndSwap cfgT [9] [1] [0] [0] [1] true envT stT),
      isRelay c = false) :=
  C7_forward_once_authorization cfgT [9] [1] [0] [0] [1] true envT stT
    (by decide) (by decide) (by decide) (by decide)

/-- Counterexample to C10 as stated: an invocation with an empty asset
list but a non-empty authorization payload whose relay fails does not
succeed — it aborts, so "for every invocation with an empty asset list the
call succeeds" is false on the code. -/
theorem C10_counterexample :
    runOk (sweepAndSwap cfgP [9] [] [] [] [] true envT stT) = false ∧
    reasonOf (sweepAndSwap cfgP [9] [] [] [] [] true envT stT) = some "PERMIT_CALL_FAILED" := by
  constructor <;> decide

/-- C10 (amended): an invocation with an empty asset list (and empty
parallel lists) in which the authorization relay, if performed, succeeds,
completes successfully with no events, no outcomes, no state change, and
no external call other than the optional one-time relay of a non-empty
payload. -/
theorem C10_empty_batch (cfg : Cfg) (pc : List Nat) (be : Bool)
    (env : Nat → AssetEnv) (st : Chain)
    (hs : st.status = 1) (hok : pc = [] ∨ cfg.permitOk = true) :
    sweepAndSwap cfg pc [] [] [] [] be env st =
      .ok ⟨st, [], [], if pc = [] then [] else [.permitRelay pc]⟩ := by
  have hst : { st with status := (1 : Nat) } = st := by
    cases st
    simp_all
  rcases hok with hok | hok
  · subst hok
    simp [sweepAndSwap, hs, sweepAssets, mkReqs, hst]
  · by_cases hpc : pc = []
    · subst hpc
      simp [sweepAndSwap, hs, sweepAssets, mkReqs, hst]
    · simp [sweepAndSwap, hs, hok, hpc, sweepAssets, mkReqs, hst]

/-- Witness for C10 at a concrete empty batch with a non-empty payload. -/
theorem C10_witness :
    stT.status = 1 ∧ (([9] : List Nat) = [] ∨ cfgT.permitOk = true) ∧
    sweepAndSwap cfgT [9] [] [] [] [] true envT stT =
      .ok ⟨stT, [], [], if ([9] : List Nat) = [] then [] else [.permitRelay [9]]⟩ :=
  ⟨by decide, Or.inr (by decide),
    C10_empty_batch cfgT [9] true envT stT (by decide) (Or.inr (by decide))⟩

/-- Counterexample to C5 as stated: with oracle decimals 0, requested
decimals 100 and price 1, the claim predicts a normalized price of
1 * 10^100 and a gate verdict reported as the single price-failure reason;
the code instead hits a checked-arithmetic overflow in `10 ** 100` and the
whole invocation aborts with an arithmetic panic even in best-effort mode,
reporting nothing. -/
theorem C5_counterexample :
    priceGateEval cfgO 1 1 1000000 = .error "PANIC_ARITHMETIC_OVERFLOW" ∧
    runOk (sweepAndSwap cfgO [] [1] [1] [1000000] [1] true envT stT) = false ∧
    runEvents (sweepAndSwap cfgO [] [1] [1] [1000000] [1] true envT stT) = [] := by
  refine ⟨by rfl, by decide, by decide⟩

/-- C5 (amended): price-gate correctness provided the normalization
arithmetic fits in uint256 — no oracle passes; zero price fails; the
normalized price is the floor quotient, the product, or the price itself
according to the decimal comparison; the gate passes iff the normalized
price lies within the inclusive bounds; gate failure is reported as the
single reason string; overflowing normalizations abort instead. -/
theorem C5_price_gate_correct :
    (∀ (cfg : Cfg) (token minP maxP : Nat), cfg.oracleSet = false →
        priceGateEval cfg token minP maxP = .ok true) ∧
    (∀ (cfg : Cfg) (token minP maxP : Nat), cfg.oracleSet = true →
        (cfg.priceOf token).1 = 0 →
        priceGateEval cfg token minP maxP = .ok false) ∧
    (∀ price decs pd : Nat, decs > pd → 10 ^ (decs - pd) < uintBound →
        normalizePrice price decs pd = some (price / 10 ^ (decs - pd))) ∧
    (∀ price decs pd : Nat, decs < pd → 10 ^ (pd - decs) < uintBound →
        price * 10 ^ (pd - decs) < uintBound →
        normalizePrice price decs pd = some (price * 10 ^ (pd - decs))) ∧
    (∀ price pd : Nat, normalizePrice price pd pd = some price) ∧
    (∀ (cfg : Cfg) (token minP maxP np : Nat), cfg.oracleSet = true →
        (cfg.priceOf token).1 ≠ 0 →
        normalizePrice (cfg.priceOf token).1 (cfg.priceOf token).2 cfg.priceDecimals = some np →
        (priceGateEval cfg token minP maxP = .ok true ↔ minP ≤ np ∧ np ≤ maxP)) ∧
    (∀ (cfg : Cfg) (be : Bool) (req : AssetReq) (st : Chain),
        priceGateEval cfg req.token req.minPrice req.maxPrice = .ok false →
        sweepOne cfg be req st = failStep be "PRICE_CHECK_FAILED" st
          [.sweepFailed req.token "PRICE_OUT_OF_RANGE_OR_UNKNOWN"]
          (.untouched req.token "PRICE_OUT_OF_RANGE_OR_UNKNOWN")
          (if cfg.oracleSet then [.oracleQuery req.token] else [])) := by
  refine ⟨?_, ?_, ?_, ?_, ?_, ?_, ?_⟩
  · intro cfg token minP maxP h
    simp [priceGateEval, h]
  · intro cfg token minP maxP ho h1
    simp [priceGateEval, ho, h1]
  · intro price decs pd h hfit
    simp [normalizePrice, h, hfit]
  · intro price decs pd h hfit1 hfit2
    have hgt : ¬ decs > pd := by omega
    simp [normalizePrice, hgt, h, hfit1, hfit2]
  · intro price pd
    simp [normalizePrice]
  · intro cfg token minP maxP np ho h1 hn
    by_cases hcond : np < minP ∨ np > maxP
    · simp only [priceGateEval, ho, if_true, h1, if_neg h1, hn, hcond, if_pos hcond]
      constructor
      · intro hfalse
        cases hfalse
      · intro hb
        omega
    · simp only [priceGateEval, ho, if_true, hn, if_neg h1, if_neg hcond]
      constructor
      · intro _
        omega
      · intro _
        trivial
  · intro cfg be req st h
    simp [sweepOne, h]

/-- Witness for C5 at the specification's own normalization examples
(oracle 10 vs requested 8 divides by 100 floor, 6 vs 8 multiplies by 100,
8 vs 8 unchanged). -/
theorem C5_witness :
    normalizePrice 12345 10 8 = some (12345 / 10 ^ (10 - 8)) ∧
    normalizePrice 7 6 8 = some (7 * 10 ^ (8 - 6)) ∧
    normalizePrice 55 8 8 = some 55 :=
  ⟨C5_price_gate_correct.2.2.1 12345 10 8 (by decide) (by decide),
   C5_price_gate_correct.2.2.2.1 7 6 8 (by decide) (by decide) (by decide),
   C5_price_gate_correct.2.2.2.2.1 55 8⟩

lemma sweepOne_reaches_pulled (cfg : Cfg) (be : Bool) (req : AssetReq) (st : Chain)
    (hg : priceGateEval cfg req.token req.minPrice req.maxPrice = .ok true)
    (hb : st.userBal req.token ≠ 0)
    (hp : req.pullOk = true) :
    sweepOne cfg be req st =
      pulledStage cfg be req (st.userBal req.token)
        (pullApply st req.token (st.userBal req.token))
        ((if cfg.oracleSet then [ExtCall.oracleQuery req.token] else []) ++
          [ExtCall.balanceQuery req.token] ++
          [ExtCall.pullCall req.token (st.userBal req.token)]) := by
  simp [sweepOne, hg, hb, hp]

/-- C9: a failure of the approve step (the asset contract's approve call
failing or returning data that does not decode to true) aborts the entire
invocation regardless of the best-effort flag, even though the asset has
already been pulled — it is never converted into a refunded per-asset
outcome. -/
theorem C9_approve_failure_fatal (cfg : Cfg) (be : Bool) (req : AssetReq) (st : Chain)
    (hg : priceGateEval cfg req.token req.minPrice req.maxPrice = .ok true)
    (hb : st.userBal req.token ≠ 0)
    (hp : req.pullOk = true)
    (hcd : req.hasCalldata = true)
    (ha : callJudge req.approveCallOk req.approveRet = false) :
    ∃ cs, sweepOne cfg be req st = .error ("APPROVE_FAILED", cs) := by
  rw [sweepOne_reaches_pulled cfg be req st hg hb hp]
  refine ⟨(if cfg.oracleSet then [ExtCall.oracleQuery req.token] else []) ++
      [ExtCall.balanceQuery req.token] ++
      [ExtCall.pullCall req.token (st.userBal req.token)] ++
      [ExtCall.approveCall req.token (st.userBal req.token)], ?_⟩
  simp [pulledStage, hcd, ha]

/-- Witness for C9: a pulled asset whose approve call returns false makes
the best-effort invocation abort with APPROVE_FAILED. -/
theorem C9_witness :
    priceGateEval cfgT reqA.token reqA.minPrice reqA.maxPrice = .ok true ∧
    stT.userBal reqA.token ≠ 0 ∧ reqA.pullOk = true ∧ reqA.hasCalldata = true ∧
    callJudge reqA.approveCallOk reqA.approveRet = false ∧
    (∃ cs, sweepOne cfgT true reqA stT = .error ("APPROVE_FAILED", cs)) :=
  ⟨by rfl, by decide, by rfl, by rfl, by rfl,
    C9_approve_failure_fatal cfgT true reqA stT (by rfl) (by decide) rfl rfl (by rfl)⟩

/-- C8: the defensive transfer wrapper judges a transfer successful iff
the underlying call succeeds and either returns no data or returns data
decoding to true; and a refund transfer the wrapper judges failed (here:
the zero-output refund when the venue consumed the pulled amount and the
engine holds less than the pulled amount) aborts the whole invocation in
both modes. -/
theorem C8_safe_transfer_wrapper :
    (∀ (ok : Bool) (d : RetData),
        callJudge ok d = true ↔ (ok = true ∧ (d = .empty ∨ d = .boolVal true))) ∧
    (∀ (cfg : Cfg) (be : Bool) (req : AssetReq) (st : Chain),
      priceGateEval cfg req.token req.minPrice req.maxPrice = .ok true →
      st.userBal req.token ≠ 0 →
      req.pullOk = true →
      req.hasCalldata = true →
      callJudge req.approveCallOk req.approveRet = true →
      aggSuccess req.venue (pullApply st req.token (st.userBal req.token)) = true →
      req.takesAll = true →
      req.giveTarget = 0 →
      cfg.targetToken ≠ 0 →
      cfg.targetToken ≠ req.token →
      st.engBal req.token < st.userBal req.token →
      ∃ cs, sweepOne cfg be req st = .error ("TRANSFER_FAILED", cs)) := by
  constructor
  · intro ok d
    cases d with
    | empty => cases ok <;> simp [callJudge]
    | boolVal b => cases ok <;> cases b <;> simp [callJudge]
    | malformed => cases ok <;> simp [callJudge]
  · intro cfg be req st hg hb hp hcd ha hagg htk hgt htgt htne hins
    have htne' : req.token ≠ cfg.targetToken := Ne.symm htne
    rw [sweepOne_reaches_pulled cfg be req st hg hb hp]
    refine ⟨(if cfg.oracleSet then [ExtCall.oracleQuery req.token] else []) ++
        [ExtCall.balanceQuery req.token] ++
        [ExtCall.pullCall req.token (st.userBal req.token)] ++
        [ExtCall.approveCall req.token (st.userBal req.token)] ++
        [ExtCall.aggCall req.token] ++
        [ExtCall.tokenXfer req.token (st.userBal req.token)], ?_⟩
    simp only [pulledStage, hcd, if_true, ha, convertStage, hagg]
    simp only [settleStage, if_neg htgt]
    simp only [if_pos htgt]
    have hb2 : (venueApply cfg req (st.userBal req.token)
        (pullApply st req.token (st.userBal req.token))).engBal cfg.targetToken =
        (pullApply st req.token (st.userBal req.token)).engBal cfg.targetToken := by
      simp [venueApply, upd, htgt, htne, htne', hgt]
    have hb3 : (venueApply cfg req (st.userBal req.token)
        (pullApply st req.token (st.userBal req.token))).engBal req.token =
        st.engBal req.token := by
      simp [venueApply, pullApply, upd, htk, htgt, htne, htne', Nat.add_sub_cancel]
    rw [hb2]
    rw [if_neg (lt_irrefl ((pullApply st req.token (st.userBal req.token)).engBal cfg.targetToken))]
    simp only [refundThen]
    rw [xfer_of_gt _ _ _ (by rw [hb3]; exact hins)]

/-- Witness for C8: wrapper judgement at a concrete call result, and the
zero-output refund failure aborting a concrete best-effort invocation. -/
theorem C8_witness :
    (callJudge true RetData.empty = true ↔
      (true = true ∧ (RetData.empty = RetData.empty ∨ RetData.empty = RetData.boolVal true))) ∧
    stT.engBal reqC.token < stT.userBal reqC.token ∧
    (∃ cs, sweepOne cfgT true reqC stT = .error ("TRANSFER_FAILED", cs)) :=
  ⟨C8_safe_transfer_wrapper.1 true RetData.empty,
   by decide,
   C8_safe_transfer_wrapper.2 cfgT true reqC stT (by rfl) (by decide) rfl rfl (by rfl)
     (by rfl) rfl rfl (by decide) (by decide) (by decide)⟩

/-- Counterexample to C3 as stated: with the native-asset sentinel as
target, an asset whose pull and venue call succeed but which yields zero
output is NOT refunded and NOT reported as "no target asset received" —
the code emits a successful Swept event with output 0 and keeps the
initiator's tokens pulled. -/
theorem C3_counterexample :
    runOk (sweepAndSwap cfgZ [] [7] [0] [0] [1] true envZ stN) = true ∧
    runEvents (sweepAndSwap cfgZ [] [7] [0] [0] [1] true envZ stN) = [.swept 7 5 0 0] ∧
    (stateOf (sweepAndSwap cfgZ [] [7] [0] [0] [1] true envZ stN) stN).userBal 7 = 0 ∧
    stN.userBal 7 = 5 := by
  refine ⟨by decide, by decide, by decide, by decide⟩

/-- C3 (amended): for an ERC20 (non-sentinel) target distinct from the
source asset, when the pull and venue call succeed but the settlement step
computes zero output, the engine refunds the originally pulled amount to
the initiator (possible here because the venue consumed nothing, so the
refund transfer succeeds) and reports the failure as NO_TARGET_RECEIVED;
in atomic mode the same branch aborts with that reason. -/
theorem C3_zero_output_refund (cfg : Cfg) (be : Bool) (req : AssetReq) (st : Chain)
    (htgt : cfg.targetToken ≠ 0)
    (htne : cfg.targetToken ≠ req.token)
    (hg : priceGateEval cfg req.token req.minPrice req.maxPrice = .ok true)
    (hb : st.userBal req.token ≠ 0)
    (hp : req.pullOk = true)
    (hcd : req.hasCalldata = true)
    (ha : callJudge req.approveCallOk req.approveRet = true)
    (hagg : aggSuccess req.venue (pullApply st req.token (st.userBal req.token)) = true)
    (hgt : req.giveTarget = 0)
    (htk : req.takesAll = false) :
    ∃ st3 cs,
      xfer (venueApply cfg req (st.userBal req.token) (pullApply st req.token (st.userBal req.token)))
          req.token (st.userBal req.token) = some st3 ∧
      st3.userBal req.token = st.userBal req.token ∧
      sweepOne cfg be req st =
        (if be then
          .ok (st3, [.sweepFailed req.token "NO_TARGET_RECEIVED"],
            .refunded req.token (st.userBal req.token) "NO_TARGET_RECEIVED", cs)
         else .error ("NO_TARGET_RECEIVED", cs)) := by
  have htne' : req.token ≠ cfg.targetToken := Ne.symm htne
  have hb2 : (venueApply cfg req (st.userBal req.token)
      (pullApply st req.token (st.userBal req.token))).engBal cfg.targetToken =
      (pullApply st req.token (st.userBal req.token)).engBal cfg.targetToken := by
    simp [venueApply, upd, htgt, htne, htne', hgt]
  have hb3 : (venueApply cfg req (st.userBal req.token)
      (pullApply st req.token (st.userBal req.token))).engBal req.token =
      st.engBal req.token + st.userBal req.token := by
    simp [venueApply, pullApply, upd, htk, htgt, htne, htne']
  have hle2 : st.userBal req.token ≤ (venueApply cfg req (st.userBal req.token)
      (pullApply st req.token (st.userBal req.token))).engBal req.token := by
    rw [hb3]
    exact Nat.le_add_left _ _
  have hx := xfer_of_le (venueApply cfg req (st.userBal req.token)
      (pullApply st req.token (st.userBal req.token))) req.token (st.userBal req.token) hle2
  refine ⟨_, (if cfg.oracleSet then [ExtCall.oracleQuery req.token] else []) ++
      [ExtCall.balanceQuery req.token] ++
      [ExtCall.pullCall req.token (st.userBal req.token)] ++
      [ExtCall.approveCall req.token (st.userBal req.token)] ++
      [ExtCall.aggCall req.token] ++
      [ExtCall.tokenXfer req.token (st.userBal req.token)], hx, ?_, ?_⟩
  · simp [venueApply, pullApply, upd, htgt, htne, htne', htk, Nat.sub_self]
  · rw [sweepOne_reaches_pulled cfg be req st hg hb hp]
    simp only [pulledStage, hcd, if_true, ha, convertStage, hagg]
    simp only [settleStage, if_neg htgt]
    simp only [if_pos htgt]
    rw [hb2]
    rw [if_neg (lt_irrefl ((pullApply st req.token (st.userBal req.token)).engBal cfg.targetToken))]
    simp only [refundThen]
    rw [hx]
    simp only [failStep]

/-- Witness for C3 on the no-op-venue fixture. -/
theorem C3_witness :
    cfgT.targetToken ≠ 0 ∧ cfgT.targetToken ≠ reqB.token ∧
    reqB.giveTarget = 0 ∧ reqB.takesAll = false ∧
    (∃ st3 cs,
      xfer (venueApply cfgT reqB (stT.userBal reqB.token)
          (pullApply stT reqB.token (stT.userBal reqB.token)))
          reqB.token (stT.userBal reqB.token) = some st3 ∧
      st3.userBal reqB.token = stT.userBal reqB.token ∧
      sweepOne cfgT true reqB stT =
        (if true then
          .ok (st3, [.sweepFailed reqB.token "NO_TARGET_RECEIVED"],
            .refunded reqB.token (stT.userBal reqB.token) "NO_TARGET_RECEIVED", cs)
         else .error ("NO_TARGET_RECEIVED", cs))) :=
  ⟨by decide, by decide, rfl, rfl,
    C3_zero_output_refund cfgT true reqB stT (by decide) (by decide) (by rfl) (by decide)
      rfl rfl (by rfl) (by rfl) rfl rfl⟩

lemma sweepAndSwap_ok_status (cfg : Cfg) (pc tokens minPs maxPs dataLens : List Nat)
    (be : Bool) (env : Nat → AssetEnv) (st : Chain) (r : RunResult)
    (h : sweepAndSwap cfg pc tokens minPs maxPs dataLens be env st = .ok r) :
    r.state.status = 1 := by
  simp only [sweepAndSwap] at h
  repeat' split at h
  all_goals first
    | (injection h with h; subst h; rfl)
    | exact absurd h (by simp)

/-- C2: the reentrancy lock — a busy lock makes any (nested) invocation
fail fast with the REENTRANCY error before doing anything; the lock is
free again after every exit path (normal return restores it explicitly,
an abort rolls the whole state back); and a venue that attempts to reenter
during its aggregator call (whose nested call therefore fails at the
guard, making the venue revert) causes the outer operation to observe an
aggregator-call failure — refund plus SweepFailed report in best-effort
mode, batch abort in atomic mode — never a silent success. -/
theorem C2_reentrancy_exclusion :
    (∀ (cfg : Cfg) (pc tokens minPs maxPs dataLens : List Nat) (be : Bool)
        (env : Nat → AssetEnv) (st : Chain),
      (st.status ≠ 1 →
        sweepAndSwap cfg pc tokens minPs maxPs dataLens be env st = .error ⟨"REENTRANCY", []⟩) ∧
      (runOk (sweepAndSwap cfg pc tokens minPs maxPs dataLens be env st) = true →
        (stateOf (sweepAndSwap cfg pc tokens minPs maxPs dataLens be env st) st).status = 1) ∧
      (runOk (sweepAndSwap cfg pc tokens minPs maxPs dataLens be env st) = false →
        stateOf (sweepAndSwap cfg pc tokens minPs maxPs dataLens be env st) st = st)) ∧
    (∀ (cfg : Cfg) (be : Bool) (req : AssetReq) (st : Chain),
      st.status = 2 → req.venue = .reentrant →
      priceGateEval cfg req.token req.minPrice req.maxPrice = .ok true →
      st.userBal req.token ≠ 0 → req.pullOk = true → req.hasCalldata = true →
      callJudge req.approveCallOk req.approveRet = true →
      ∃ st2 cs,
        xfer (pullApply st req.token (st.userBal req.token)) req.token
          (st.userBal req.token) = some st2 ∧
        sweepOne cfg be req st =
          (if be then
            .ok (st2, [.sweepFailed req.token "AGGREGATOR_CALL_FAILED"],
              .refunded req.token (st.userBal req.token) "AGGREGATOR_CALL_FAILED", cs)
           else .error ("AGGREGATOR_CALL_FAILED", cs))) := by
  constructor
  · intro cfg pc tokens minPs maxPs dataLens be env st
    refine ⟨?_, ?_, ?_⟩
    · intro h
      simp [sweepAndSwap, h]
    · intro hrun
      rcases hR : sweepAndSwap cfg pc tokens minPs maxPs dataLens be env st with e | r
      · rw [hR] at hrun
        simp [runOk] at hrun
      · simp only [stateOf, hR]
        exact sweepAndSwap_ok_status cfg pc tokens minPs maxPs dataLens be env st r hR
    · intro hrun
      rcases hR : sweepAndSwap cfg pc tokens minPs maxPs dataLens be env st with e | r
      · simp [stateOf, hR]
      · rw [hR] at hrun
        simp [runOk] at hrun
  · intro cfg be req st hs hv hg hb hp hcd ha
    have hst1 : (pullApply st req.token (st.userBal req.token)).status = 2 := by
      simp [pullApply, hs]
    have hagg : aggSuccess req.venue (pullApply st req.token (st.userBal req.token)) = false := by
      rw [hv]
      simp [aggSuccess, hst1]
    have hpb : (pullApply st req.token (st.userBal req.token)).engBal req.token =
        st.engBal req.token + st.userBal req.token := by
      simp [pullApply, upd]
    have hle : st.userBal req.token ≤
        (pullApply st req.token (st.userBal req.token)).engBal req.token := by
      rw [hpb]
      exact Nat.le_add_left _ _
    have hx := xfer_of_le (pullApply st req.token (st.userBal req.token)) req.token
      (st.userBal req.token) hle
    rw [sweepOne_reaches_pulled cfg be req st hg hb hp]
    refine ⟨_, (if cfg.oracleSet then [ExtCall.oracleQuery req.token] else []) ++
        [ExtCall.balanceQuery req.token] ++
        [ExtCall.pullCall req.token (st.userBal req.token)] ++
        [ExtCall.approveCall req.token (st.userBal req.token)] ++
        [ExtCall.aggCall req.token] ++
        [ExtCall.tokenXfer req.token (st.userBal req.token)], hx, ?_⟩
    simp only [pulledStage, hcd, if_true, ha, convertStage, hagg, Bool.false_eq_true, if_false]
    simp only [refundThen]
    rw [hx]
    simp only [failStep]

/-- Witness for C2: a busy lock rejects a concrete invocation, and a
reentrant venue on a concrete pulled asset yields the aggregator-failure
refund outcome. -/
theorem C2_witness :
    sweepAndSwap cfgT [] [1] [0] [0] [1] true envT stBusy = .error ⟨"REENTRANCY", []⟩ ∧
    (∃ st2 cs,
      xfer (pullApply stBusy reqR.token (stBusy.userBal reqR.token)) reqR.token
        (stBusy.userBal reqR.token) = some st2 ∧
      sweepOne cfgT true reqR stBusy =
        (if true then
          .ok (st2, [.sweepFailed reqR.token "AGGREGATOR_CALL_FAILED"],
            .refunded reqR.token (stBusy.userBal reqR.token) "AGGREGATOR_CALL_FAILED", cs)
         else .error ("AGGREGATOR_CALL_FAILED", cs))) :=
  ⟨(C2_reentrancy_exclusion.1 cfgT [] [1] [0] [0] [1] true envT stBusy).1 (by decide),
   C2_reentrancy_exclusion.2 cfgT true reqR stBusy (by decide) rfl (by rfl) (by decide)
     rfl rfl (by rfl)⟩

lemma refundThen_mode (reason : String) (token amt : Nat) (st : Chain) (cs : List ExtCall)
    (st' : Chain) (evs : List Event) (o : Outcome) (cs' : List ExtCall)
    (h : refundThen true reason token amt st cs = .ok (st', evs, o, cs'))
    (hne : hasFail evs = false) :
    refundThen false reason token amt st cs = .ok (st', evs, o, cs') := by
  exfalso
  simp only [refundThen, failStep, if_true] at h
  split at h
  · exact absurd h (by simp)
  · simp only [Except.ok.injEq, Prod.mk.injEq] at h
    obtain ⟨-, hevs, -, -⟩ := h
    rw [← hevs] at hne
    simp [hasFail] at hne

lemma settleStage_mode (cfg : Cfg) (req : AssetReq) (amountIn balBefore : Nat)
    (st2 : Chain) (c4 : List ExtCall)
    (st' : Chain) (evs : List Event) (o : Outcome) (cs' : List ExtCall)
    (h : settleStage cfg true req amountIn balBefore st2 c4 = .ok (st', evs, o, cs'))
    (hne : hasFail evs = false) :
    settleStage cfg false req amountIn balBefore st2 c4 = .ok (st', evs, o, cs') := by
  by_cases h0 : cfg.targetToken = 0
  · by_cases h1 : st2.engEth > 0
    · by_cases h2 : cfg.ethSendOk
      · simp only [settleStage, if_pos h0, if_pos h1, h2, if_true] at h ⊢
        exact h
      · exfalso
        have h4 : cfg.ethSendOk = false := by
          rw [Bool.not_eq_true] at h2
          exact h2
        simp only [settleStage, if_pos h0, if_pos h1, h4, Bool.false_eq_true, if_false,
          failStep, if_true] at h
        simp only [Except.ok.injEq, Prod.mk.injEq] at h
        obtain ⟨-, hevs, -, -⟩ := h
        rw [← hevs] at hne
        simp [hasFail] at hne
    · simp only [settleStage, if_pos h0, if_neg h1] at h ⊢
      exact h
  · by_cases h3 : st2.engBal cfg.targetToken > balBefore
    · simp only [settleStage, if_neg h0, if_pos h3] at h ⊢
      exact h
    · simp only [settleStage, if_neg h0, if_neg h3] at h ⊢
      exact refundThen_mode _ _ _ _ _ _ _ _ _ h hne

lemma convertStage_mode (cfg : Cfg) (req : AssetReq) (amountIn : Nat)
    (st1 : Chain) (c3 : List ExtCall)
    (st' : Chain) (evs : List Event) (o : Outcome) (cs' : List ExtCall)
    (h : convertStage cfg true req amountIn st1 c3 = .ok (st', evs, o, cs'))
    (hne : hasFail evs = false) :
    convertStage cfg false req amountIn st1 c3 = .ok (st', evs, o, cs') := by
  by_cases hagg : aggSuccess req.venue st1 = true
  · simp only [convertStage, hagg, if_true] at h ⊢
    exact settleStage_mode _ _ _ _ _ _ _ _ _ _ h hne
  · have hagg2 : aggSuccess req.venue st1 = false := by
      rw [Bool.not_eq_true] at hagg
      exact hagg
    simp only [convertStage, hagg2, Bool.false_eq_true, if_false] at h ⊢
    exact refundThen_mode _ _ _ _ _ _ _ _ _ h hne

lemma pulledStage_mode (cfg : Cfg) (req : AssetReq) (amountIn : Nat)
    (st1 : Chain) (c2 : List ExtCall)
    (st' : Chain) (evs : List Event) (o : Outcome) (cs' : List ExtCall)
    (h : pulledStage cfg true req amountIn st1 c2 = .ok (st', evs, o, cs'))
    (hne : hasFail evs = false) :
    pulledStage cfg false req amountIn st1 c2 = .ok (st', evs, o, cs') := by
  by_cases hcd : req.hasCalldata = true
  · by_cases ha : callJudge req.approveCallOk req.approveRet = true
    · simp only [pulledStage, hcd, if_true, ha] at h ⊢
      exact convertStage_mode _ _ _ _ _ _ _ _ _ h hne
    · exfalso
      simp only [pulledStage, hcd, if_true] at h
      rw [if_neg ha] at h
      exact absurd h (by simp)
  · simp only [pulledStage] at h ⊢
    rw [if_neg hcd] at h ⊢
    exact refundThen_mode _ _ _ _ _ _ _ _ _ h hne

lemma sweepOne_mode (cfg : Cfg) (req : AssetReq) (st : Chain)
    (st' : Chain) (evs : List Event) (o : Outcome) (cs' : List ExtCall)
    (h : sweepOne cfg true req st = .ok (st', evs, o, cs'))
    (hne : hasFail evs = false) :
    sweepOne cfg false req st = .ok (st', evs, o, cs') := by
  rcases hg : priceGateEval cfg req.token req.minPrice req.maxPrice with m | b
  · simp only [sweepOne, hg] at h
    exact absurd h (by simp)
  · cases b
    · exfalso
      simp only [sweepOne, hg, failStep, if_true] at h
      simp only [Except.ok.injEq, Prod.mk.injEq] at h
      obtain ⟨-, hevs, -, -⟩ := h
      rw [← hevs] at hne
      simp [hasFail] at hne
    · by_cases hb : st.userBal req.token = 0
      · exfalso
        simp only [sweepOne, hg, if_pos hb, failStep, if_true] at h
        simp only [Except.ok.injEq, Prod.mk.injEq] at h
        obtain ⟨-, hevs, -, -⟩ := h
        rw [← hevs] at hne
        simp [hasFail] at hne
      · by_cases hp : req.pullOk = true
        · simp only [sweepOne, hg, if_neg hb, hp, if_true] at h ⊢
          exact pulledStage_mode _ _ _ _ _ _ _ _ _ h hne
        · exfalso
          simp only [sweepOne, hg, if_neg hb, failStep] at h
          rw [if_neg hp] at h
          simp only [if_true, Except.ok.injEq, Prod.mk.injEq] at h
          obtain ⟨-, hevs, -, -⟩ := h
          rw [← hevs] at hne
          simp [hasFail] at hne

lemma sweepAssets_mode (cfg : Cfg) :
    ∀ (reqs : List AssetReq) (st : Chain) (st' : Chain) (evs : List Event)
      (os : List Outcome) (cs : List ExtCall),
      sweepAssets cfg true reqs st = .ok (st', evs, os, cs) →
      hasFail evs = false →
      sweepAssets cfg false reqs st = .ok (st', evs, os, cs) := by
  intro reqs
  induction reqs with
  | nil =>
      intro st st' evs os cs h hne
      simpa [sweepAssets] using h
  | cons r rs ih =>
      intro st st' evs os cs h hne
      rcases h1 : sweepOne cfg true r st with e | ⟨st1, evs1, o1, cs1⟩
      · simp only [sweepAssets, h1] at h
        exact absurd h (by simp)
      · simp only [sweepAssets, h1] at h
        rcases h2 : sweepAssets cfg true rs st1 with ⟨m, csx⟩ | ⟨st2, evs2, os2, cs2⟩
        · simp only [h2] at h
          exact absurd h (by simp)
        · simp only [h2] at h
          simp only [Except.ok.injEq, Prod.mk.injEq] at h
          obtain ⟨hst, hevs, hos, hcs⟩ := h
          rw [← hevs] at hne
          simp only [hasFail, List.any_append, Bool.or_eq_false_iff] at hne
          have g1 := sweepOne_mode cfg r st st1 evs1 o1 cs1 h1 hne.1
          have g2 := ih st1 st2 evs2 os2 cs2 h2 hne.2
          simp only [sweepAssets, g1, g2, hst, hevs, hos, hcs]

lemma sweepAndSwap_ok_shape (cfg : Cfg) (pc tokens minPs maxPs dataLens : List Nat)
    (be : Bool) (env : Nat → AssetEnv) (st : Chain) (r : RunResult)
    (h : sweepAndSwap cfg pc tokens minPs maxPs dataLens be env st = .ok r) :
    st.status = 1 ∧
    tokens.length = dataLens.length ∧
    tokens.length = minPs.length ∧
    tokens.length = maxPs.length ∧
    ¬ (pc ≠ [] ∧ ¬ cfg.permitOk = true) ∧
    ∃ st2 evs os cs,
      sweepAssets cfg be (mkReqs tokens minPs maxPs dataLens env) { st with status := 2 } =
        .ok (st2, evs, os, cs) ∧
      r = ⟨{ st2 with status := 1 }, evs, os,
        (if pc = [] then [] else [.permitRelay pc]) ++ cs⟩ := by
  by_cases hs : st.status ≠ 1
  · simp [sweepAndSwap, hs] at h
  · by_cases h1 : tokens.length ≠ dataLens.length
    · simp [sweepAndSwap, hs, h1] at h
    · by_cases h2 : tokens.length = minPs.length ∧ tokens.length = maxPs.length
      · by_cases h3 : pc ≠ [] ∧ ¬ cfg.permitOk = true
        · simp only [sweepAndSwap, if_neg hs, if_neg h1] at h
          rw [if_neg (not_not_intro h2)] at h
          rw [if_pos h3] at h
          simp at h
        · simp only [sweepAndSwap, if_neg hs, if_neg h1] at h
          rw [if_neg (not_not_intro h2)] at h
          rw [if_neg h3] at h
          rcases hA : sweepAssets cfg be (mkReqs tokens minPs maxPs dataLens env)
              { st with status := 2 } with ⟨m, csx⟩ | ⟨st2, evs, os, cs⟩
          · rw [hA] at h
            simp at h
          · rw [hA] at h
            injection h with h
            exact ⟨not_not.mp hs, not_not.mp h1, h2.1, h2.2, h3,
              st2, evs, os, cs, rfl, h.symm⟩
      · simp only [sweepAndSwap, if_neg hs, if_neg h1] at h
        rw [if_pos h2] at h
        simp at h

/-- C4: on every input where the best-effort run completes with no
per-asset failure event (every asset's pipeline succeeded), running
sweepAndSwap in atomic mode produces the identical result — the same final
state (hence identical balances for every party), the same event sequence,
the same outcomes and the same external calls. -/
theorem C4_mode_equivalence (cfg : Cfg) (pc tokens minPs maxPs dataLens : List Nat)
    (env : Nat → AssetEnv) (st : Chain)
    (hok : runOk (sweepAndSwap cfg pc tokens minPs maxPs dataLens true env st) = true)
    (hne : hasFail (runEvents (sweepAndSwap cfg pc tokens minPs maxPs dataLens true env st)) = false) :
    sweepAndSwap cfg pc tokens minPs maxPs dataLens false env st =
      sweepAndSwap cfg pc tokens minPs maxPs dataLens true env st := by
  rcases hR : sweepAndSwap cfg pc tokens minPs maxPs dataLens true env st with e | r
  · rw [hR] at hok
    simp [runOk] at hok
  · rw [hR] at hne
    simp only [runEvents] at hne
    obtain ⟨hs, hl1, hl2, hl3, h3, st2, evs, os, cs, hA, hr⟩ :=
      sweepAndSwap_ok_shape cfg pc tokens minPs maxPs dataLens true env st r hR
    subst hr
    simp only at hne
    have hA2 := sweepAssets_mode cfg (mkReqs tokens minPs maxPs dataLens env)
      { st with status := 2 } st2 evs os cs hA hne
    have e1 : (st.status ≠ 1) = False := by simp [hs]
    have e2 : (tokens.length ≠ dataLens.length) = False := by simp [hl1]
    have e3 : (¬ (tokens.length = minPs.length ∧ tokens.length = maxPs.length)) = False := by
      simp [← hl2, ← hl3]
    simp only [sweepAndSwap, e1, if_false, e2, e3]
    rw [if_neg h3]
    rw [hA2]

/-- Witness for C4 on the happy-path fixture. -/
theorem C4_witness :
    runOk (sweepAndSwap cfgT [] [1] [0] [0] [1] true envT stT) = true ∧
    hasFail (runEvents (sweepAndSwap cfgT [] [1] [0] [0] [1] true envT stT)) = false ∧
    sweepAndSwap cfgT [] [1] [0] [0] [1] false envT stT =
      sweepAndSwap cfgT [] [1] [0] [0] [1] true envT stT :=
  ⟨by decide, by decide,
    C4_mode_equivalence cfgT [] [1] [0] [0] [1] envT stT (by decide) (by decide)⟩

lemma xfer_some_eq (st : Chain) (token amt : Nat) (st2 : Chain)
    (h : xfer st token amt = some st2) :
    amt ≤ st.engBal token ∧
    st2 = { st with engBal := upd st.engBal token (st.engBal token - amt),
                    userBal := upd st.userBal token (st.userBal token + amt) } := by
  by_cases hle : amt ≤ st.engBal token
  · rw [xfer_of_le st token amt hle] at h
    injection h with h
    exact ⟨hle, h.symm⟩
  · rw [xfer_of_gt st token amt (not_le.mp hle)] at h
    cases h

lemma refundThen_ok_eq (be : Bool) (reason : String) (token amt : Nat) (st : Chain)
    (cs : List ExtCall) (st' : Chain) (evs : List Event) (o : Outcome) (cs' : List ExtCall)
    (h : refundThen be reason token amt st cs = .ok (st', evs, o, cs')) :
    amt ≤ st.engBal token ∧
    st' = { st with engBal := upd st.engBal token (st.engBal token - amt),
                    userBal := upd st.userBal token (st.userBal token + amt) } ∧
    o = .refunded token amt reason := by
  simp only [refundThen] at h
  rcases hx : xfer st token amt with _ | st2
  · rw [hx] at h
    simp at h
  · rw [hx] at h
    obtain ⟨hle, hrec⟩ := xfer_some_eq st token amt st2 hx
    simp only [failStep] at h
    split at h
    · simp only [Except.ok.injEq, Prod.mk.injEq] at h
      obtain ⟨h1, -, h2, -⟩ := h
      refine ⟨hle, ?_, h2.symm⟩
      rw [← h1]
      exact hrec
    · simp at h

lemma convertStage_no_strand (cfg : Cfg) (be : Bool) (req : AssetReq) (st : Chain)
    (c3 : List ExtCall) (st' : Chain) (evs : List Event) (o : Outcome) (cs' : List ExtCall)
    (htk : req.takesAll = true)
    (heth : cfg.ethSendOk = true)
    (htne : cfg.targetToken ≠ 0 → req.token ≠ cfg.targetToken)
    (h : convertStage cfg be req (st.userBal req.token)
        (pullApply st req.token (st.userBal req.token)) c3 = .ok (st', evs, o, cs')) :
    (∀ t, st'.engBal t ≤ st.engBal t) ∧ isStranded o = false := by
  have hP_token : (pullApply st req.token (st.userBal req.token)).engBal req.token =
      st.engBal req.token + st.userBal req.token := by
    simp [pullApply, upd]
  have hP_other : ∀ t, t ≠ req.token →
      (pullApply st req.token (st.userBal req.token)).engBal t = st.engBal t := by
    intro t ht
    simp [pullApply, upd, ht]
  by_cases hagg : aggSuccess req.venue (pullApply st req.token (st.userBal req.token)) = true
  · simp only [convertStage, hagg, if_true] at h
    by_cases h0 : cfg.targetToken = 0
    · -- native path: venue consumes the pulled amount, settlement never touches engBal
      have hV : ∀ t, (venueApply cfg req (st.userBal req.token)
          (pullApply st req.token (st.userBal req.token))).engBal t ≤ st.engBal t := by
        intro t
        by_cases ht : t = req.token
        · subst ht
          simp [venueApply, h0, htk, upd, hP_token, Nat.add_sub_cancel]
        · simp [venueApply, h0, upd, ht, hP_other t ht]
      simp only [settleStage, if_pos h0] at h
      by_cases h1 : (venueApply cfg req (st.userBal req.token)
          (pullApply st req.token (st.userBal req.token))).engEth > 0
      · rw [if_pos h1] at h
        simp only [heth, if_true] at h
        simp only [Except.ok.injEq, Prod.mk.injEq] at h
        obtain ⟨h2, -, h3, -⟩ := h
        rw [← h2, ← h3]
        exact ⟨hV, rfl⟩
      · rw [if_neg h1] at h
        simp only [Except.ok.injEq, Prod.mk.injEq] at h
        obtain ⟨h2, -, h3, -⟩ := h
        rw [← h2, ← h3]
        exact ⟨hV, rfl⟩
    · -- ERC20 path
      have hne2 : req.token ≠ cfg.targetToken := htne h0
      have hne3 : cfg.targetToken ≠ req.token := Ne.symm hne2
      have hV_token : (venueApply cfg req (st.userBal req.token)
          (pullApply st req.token (st.userBal req.token))).engBal req.token =
          st.engBal req.token := by
        simp [venueApply, h0, htk, upd, hne2, hne3, hP_token, Nat.add_sub_cancel]
      have hV_target : (venueApply cfg req (st.userBal req.token)
          (pullApply st req.token (st.userBal req.token))).engBal cfg.targetToken =
          st.engBal cfg.targetToken + req.giveTarget := by
        simp [venueApply, h0, upd, hne2, hne3, hP_other cfg.targetToken hne3]
      have hV_other : ∀ t, t ≠ req.token → t ≠ cfg.targetToken →
          (venueApply cfg req (st.userBal req.token)
            (pullApply st req.token (st.userBal req.token))).engBal t = st.engBal t := by
        intro t h1 h2
        simp [venueApply, h0, upd, h1, h2, hP_other t h1]
      simp only [settleStage, if_neg h0] at h
      rw [if_pos h0] at h
      by_cases h3 : (venueApply cfg req (st.userBal req.token)
          (pullApply st req.token (st.userBal req.token))).engBal cfg.targetToken >
          (pullApply st req.token (st.userBal req.token)).engBal cfg.targetToken
      · rw [if_pos h3] at h
        rcases hx : xfer (venueApply cfg req (st.userBal req.token)
            (pullApply st req.token (st.userBal req.token))) cfg.targetToken
            ((venueApply cfg req (st.userBal req.token)
              (pullApply st req.token (st.userBal req.token))).engBal cfg.targetToken -
             (pullApply st req.token (st.userBal req.token)).engBal cfg.targetToken)
            with _ | st3
        · rw [hx] at h
          simp at h
        · rw [hx] at h
          simp only [Except.ok.injEq, Prod.mk.injEq] at h
          obtain ⟨h4, -, h5, -⟩ := h
          obtain ⟨hle, hrec⟩ := xfer_some_eq _ _ _ _ hx
          refine ⟨?_, by rw [← h5]; rfl⟩
          intro t
          rw [← h4, hrec]
          by_cases ht : t = cfg.targetToken
          · subst ht
            simp only [upd_self]
            rw [hP_other cfg.targetToken hne3] at h3 ⊢
            rw [hV_target] at h3 ⊢
            omega
          · simp only [upd_ne _ _ _ _ ht]
            by_cases ht2 : t = req.token
            · subst ht2
              rw [hV_token]
            · rw [hV_other t ht2 ht]
      · rw [if_neg h3] at h
        rw [hP_other cfg.targetToken hne3, hV_target] at h3
        have hg0 : req.giveTarget = 0 := by omega
        obtain ⟨hle, hrec, ho⟩ := refundThen_ok_eq _ _ _ _ _ _ _ _ _ _ h
        refine ⟨?_, by rw [ho]; rfl⟩
        intro t
        rw [hrec]
        by_cases ht : t = req.token
        · subst ht
          simp only [upd_self]
          rw [hV_token]
          exact Nat.sub_le _ _
        · simp only [upd_ne _ _ _ _ ht]
          by_cases ht2 : t = cfg.targetToken
          · subst ht2
            rw [hV_target, hg0]
            omega
          · rw [hV_other t ht ht2]
  · simp only [convertStage] at h
    rw [if_neg hagg] at h
    obtain ⟨hle, hrec, ho⟩ := refundThen_ok_eq _ _ _ _ _ _ _ _ _ _ h
    refine ⟨?_, by rw [ho]; rfl⟩
    intro t
    rw [hrec]
    by_cases ht : t = req.token
    · subst ht
      simp only [upd_self]
      rw [hP_token]
      omega
    · simp only [upd_ne _ _ _ _ ht]
      rw [hP_other t ht]

lemma pulledStage_no_strand (cfg : Cfg) (be : Bool) (req : AssetReq) (st : Chain)
    (c2 : List ExtCall) (st' : Chain) (evs : List Event) (o : Outcome) (cs' : List ExtCall)
    (htk : req.takesAll = true)
    (heth : cfg.ethSendOk = true)
    (htne : cfg.targetToken ≠ 0 → req.token ≠ cfg.targetToken)
    (h : pulledStage cfg be req (st.userBal req.token)
        (pullApply st req.token (st.userBal req.token)) c2 = .ok (st', evs, o, cs')) :
    (∀ t, st'.engBal t ≤ st.engBal t) ∧ isStranded o = false := by
  by_cases hcd : req.hasCalldata = true
  · by_cases ha : callJudge req.approveCallOk req.approveRet = true
    · simp only [pulledStage, hcd, if_true, ha] at h
      exact convertStage_no_strand cfg be req st _ st' evs o cs' htk heth htne h
    · simp only [pulledStage, hcd, if_true] at h
      rw [if_neg ha] at h
      simp at h
  · simp only [pulledStage] at h
    rw [if_neg hcd] at h
    obtain ⟨hle, hrec, ho⟩ := refundThen_ok_eq _ _ _ _ _ _ _ _ _ _ h
    refine ⟨?_, by rw [ho]; rfl⟩
    intro t
    rw [hrec]
    by_cases ht : t = req.token
    · subst ht
      simp only [upd_self]
      have hP : (pullApply st req.token (st.userBal req.token)).engBal req.token =
          st.engBal req.token + st.userBal req.token := by
        simp [pullApply, upd]
      rw [hP]
      omega
    · simp only [upd_ne _ _ _ _ ht]
      simp [pullApply, upd, ht]

lemma sweepOne_no_strand (cfg : Cfg) (be : Bool) (req : AssetReq) (st : Chain)
    (st' : Chain) (evs : List Event) (o : Outcome) (cs : List ExtCall)
    (htk : req.takesAll = true)
    (heth : cfg.ethSendOk = true)
    (htne : cfg.targetToken ≠ 0 → req.token ≠ cfg.targetToken)
    (h : sweepOne cfg be req st = .ok (st', evs, o, cs)) :
    (∀ t, st'.engBal t ≤ st.engBal t) ∧ isStranded o = false := by
  rcases hg : priceGateEval cfg req.token req.minPrice req.maxPrice with m | b
  · simp only [sweepOne, hg] at h
    simp at h
  · cases b
    · simp only [sweepOne, hg, failStep] at h
      split at h
      · simp only [Except.ok.injEq, Prod.mk.injEq] at h
        obtain ⟨h1, -, h2, -⟩ := h
        rw [← h1, ← h2]
        exact ⟨fun t => le_refl _, rfl⟩
      · simp at h
    · by_cases hb : st.userBal req.token = 0
      · simp only [sweepOne, hg, if_pos hb, failStep] at h
        split at h
        · simp only [Except.ok.injEq, Prod.mk.injEq] at h
          obtain ⟨h1, -, h2, -⟩ := h
          rw [← h1, ← h2]
          exact ⟨fun t => le_refl _, rfl⟩
        · simp at h
      · by_cases hp : req.pullOk = true
        · simp only [sweepOne, hg, if_neg hb, hp, if_true] at h
          exact pulledStage_no_strand cfg be req st _ st' evs o cs htk heth htne h
        · simp only [sweepOne, hg, if_neg hb, failStep] at h
          rw [if_neg hp] at h
          split at h
          · simp only [Except.ok.injEq, Prod.mk.injEq] at h
            obtain ⟨h1, -, h2, -⟩ := h
            rw [← h1, ← h2]
            exact ⟨fun t => le_refl _, rfl⟩
          · simp at h

lemma sweepAssets_no_strand (cfg : Cfg) (be : Bool) :
    ∀ (reqs : List AssetReq) (st st' : Chain) (evs : List Event)
      (os : List Outcome) (cs : List ExtCall),
      (∀ r ∈ reqs, r.takesAll = true ∧ (cfg.targetToken ≠ 0 → r.token ≠ cfg.targetToken)) →
      cfg.ethSendOk = true →
      sweepAssets cfg be reqs st = .ok (st', evs, os, cs) →
      (∀ t, st'.engBal t ≤ st.engBal t) ∧ ∀ o ∈ os, isStranded o = false := by
  intro reqs
  induction reqs with
  | nil =>
      intro st st' evs os cs hcond heth h
      simp only [sweepAssets, Except.ok.injEq, Prod.mk.injEq] at h
      obtain ⟨h1, -, h2, -⟩ := h
      rw [← h1, ← h2]
      exact ⟨fun t => le_refl _, by simp⟩
  | cons r rs ih =>
      intro st st' evs os cs hcond heth h
      rcases h1 : sweepOne cfg be r st with e | ⟨st1, evs1, o1, cs1⟩
      · simp only [sweepAssets, h1] at h
        exact absurd h (by simp)
      · simp only [sweepAssets, h1] at h
        rcases h2 : sweepAssets cfg be rs st1 with ⟨m, csx⟩ | ⟨st2, evs2, os2, cs2⟩
        · simp only [h2] at h
          exact absurd h (by simp)
        · simp only [h2] at h
          simp only [Except.ok.injEq, Prod.mk.injEq] at h
          obtain ⟨hst, -, hos, -⟩ := h
          have hr := hcond r (List.mem_cons_self r rs)
          obtain ⟨g1, g1o⟩ := sweepOne_no_strand cfg be r st st1 evs1 o1 cs1
            hr.1 heth hr.2 h1
          obtain ⟨g2, g2o⟩ := ih st1 st2 evs2 os2 cs2
            (fun x hx => hcond x (List.mem_cons_of_mem r hx)) heth h2
          constructor
          · intro t
            rw [← hst]
            exact le_trans (g2 t) (g1 t)
          · intro o ho
            rw [← hos] at ho
            rcases List.mem_cons.1 ho with rfl | ho
            · exact g1o
            · exact g2o o ho

lemma mkReqs_mem (tokens minPs maxPs dataLens : List Nat) (env : Nat → AssetEnv)
    (r : AssetReq) (h : r ∈ mkReqs tokens minPs maxPs dataLens env) :
    r.token ∈ tokens ∧ ∃ i, r.takesAll = (env i).takesAll := by
  simp only [mkReqs, List.mem_map, List.mem_range] at h
  obtain ⟨i, hi, rfl⟩ := h
  constructor
  · simp only
    rw [List.getD_eq_getElem tokens 0 hi]
    exact List.getElem_mem hi
  · exact ⟨i, rfl⟩

/-- Counterexample to C1 as stated: native-asset target, the venue
consumes the pulled tokens and sends 3 wei of ETH to the engine, but the
initiator rejects the native transfer; the best-effort invocation
completes (non-aborted) with the asset pulled, nothing settled, nothing
refunded, and the value retained inside the engine. -/
theorem C1_counterexample :
    runOk (sweepAndSwap cfgN [] [7] [0] [0] [1] true envN stN) = true ∧
    runEvents (sweepAndSwap cfgN [] [7] [0] [0] [1] true envN stN) =
      [.sweepFailed 7 "ETH_TRANSFER_FAILED"] ∧
    (stateOf (sweepAndSwap cfgN [] [7] [0] [0] [1] true envN stN) stN).userBal 7 = 0 ∧
    (stateOf (sweepAndSwap cfgN [] [7] [0] [0] [1] true envN stN) stN).userEth = 0 ∧
    (stateOf (sweepAndSwap cfgN [] [7] [0] [0] [1] true envN stN) stN).engEth = 3 ∧
    runOutcomes (sweepAndSwap cfgN [] [7] [0] [0] [1] true envN stN) =
      [.nativeStranded 7 5] ∧
    stN.userBal 7 = 5 := by
  refine ⟨by decide, by decide, by decide, by decide, by decide, by decide, by decide⟩

/-- C1 (amended): no stranded value holds for every non-aborted invocation
provided (i) the initiator accepts native transfers (excluding the
native-transfer-failure asymmetry of Section 9 of the specification),
(ii) every successful venue call consumes the full pulled amount (its
collaborator contract), and (iii) an ERC20 target token is not itself one
of the listed source assets: every per-asset outcome is then
converted-and-settled, refunded-in-full, or untouched-before-pull (never
the stranded native branch), and the engine ends holding no more of any
token than it held before the call. -/
theorem C1_no_stranded_value (cfg : Cfg) (pc tokens minPs maxPs dataLens : List Nat) (be : Bool)
    (env : Nat → AssetEnv) (st : Chain)
    (heth : cfg.ethSendOk = true)
    (htk : ∀ i, (env i).takesAll = true)
    (htgt : cfg.targetToken ≠ 0 → cfg.targetToken ∉ tokens)
    (hok : runOk (sweepAndSwap cfg pc tokens minPs maxPs dataLens be env st) = true) :
    (∀ t, (stateOf (sweepAndSwap cfg pc tokens minPs maxPs dataLens be env st) st).engBal t ≤
      st.engBal t) ∧
    (∀ o ∈ runOutcomes (sweepAndSwap cfg pc tokens minPs maxPs dataLens be env st),
      isStranded o = false) := by
  rcases hR : sweepAndSwap cfg pc tokens minPs maxPs dataLens be env st with e | r
  · rw [hR] at hok
    simp [runOk] at hok
  · obtain ⟨hs, hl1, hl2, hl3, h3, st2, evs, os, cs, hA, hr⟩ :=
      sweepAndSwap_ok_shape cfg pc tokens minPs maxPs dataLens be env st r hR
    have hcond : ∀ q ∈ mkReqs tokens minPs maxPs dataLens env,
        q.takesAll = true ∧ (cfg.targetToken ≠ 0 → q.token ≠ cfg.targetToken) := by
      intro q hq
      obtain ⟨hmem, i, hi⟩ := mkReqs_mem tokens minPs maxPs dataLens env q hq
      refine ⟨by rw [hi]; exact htk i, ?_⟩
      intro h0 hcontra
      exact htgt h0 (hcontra ▸ hmem)
    obtain ⟨hle, hos⟩ := sweepAssets_no_strand cfg be
      (mkReqs tokens minPs maxPs dataLens env) { st with status := 2 } st2 evs os cs
      hcond heth hA
    constructor
    · intro t
      simp only [stateOf, hr]
      exact hle t
    · intro o ho
      simp only [runOutcomes, hr] at ho
      exact hos o ho

/-- Witness for C1 on the happy-path fixture. -/
theorem C1_witness :
    cfgT.ethSendOk = true ∧
    runOk (sweepAndSwap cfgT [] [1] [0] [0] [1] true envT stT) = true ∧
    ((∀ t, (stateOf (sweepAndSwap cfgT [] [1] [0] [0] [1] true envT stT) stT).engBal t ≤
        stT.engBal t) ∧
      (∀ o ∈ runOutcomes (sweepAndSwap cfgT [] [1] [0] [0] [1] true envT stT),
        isStranded o = false)) :=
  ⟨rfl, by decide,
    C1_no_stranded_value cfgT [] [1] [0] [0] [1] true envT stT rfl (fun _ => rfl)
      (by decide) (by decide)⟩
